import Mathlib

/-
  Verification of the FileShare chunked-streaming protocol and session
  registry against its natural-language specification.

  The definitions below are a shallow embedding of the program:
  * `ChunkProtocol.ts`  — frame codec (encodeChunk / decodeChunk)
  * `FlowControl.ts`    — SlidingWindow, ReceivedRanges
  * `Sender.ts`         — sender engine (sendFile / sendLoop / handleAck / cancel)
  * `Receiver.ts`       — receiver engine (handleBinaryChunk / writeChunkToDisk)
  * `RedisSessionRepository.java` — createSession / joinSession
  * `ValidatePin.ts`, `PinValidator.java` — PIN validation

  Bytes are naturals below 256; JavaScript `number` indices and lengths are
  naturals (all indices and sizes in the program are non-negative integers);
  machine truncation of `DataView.setUint32`/`getUint32` is `% 2^32`.
-/

namespace FileShare

/-! ### Frame codec (`ChunkProtocol.ts`) -/

/-- `CHUNK_SIZE = 64 * 1024` from `ChunkProtocol.ts`. -/
def CHUNK_SIZE : ℕ := 64 * 1024

/-- `HEADER_SIZE = 8` from `ChunkProtocol.ts`. -/
def HEADER_SIZE : ℕ := 8

/-- Big-endian bytes stored by `DataView.setUint32(off, n, false)`:
the four bytes of `n mod 2^32`, most significant first. -/
def be32 (n : ℕ) : List ℕ :=
  [n / 16777216 % 256, n / 65536 % 256, n / 256 % 256, n % 256]

/-- Value read by `DataView.getUint32(off, false)` from four bytes. -/
def readU32BE (b0 b1 b2 b3 : ℕ) : ℕ :=
  b0 * 16777216 + b1 * 65536 + b2 * 256 + b3

/-- `encodeChunk(chunkIndex, payload)`: an `ArrayBuffer` of
`HEADER_SIZE + payload.byteLength` bytes — `chunkIndex` big-endian at offset 0,
`payload.byteLength` big-endian at offset 4, then the payload bytes. -/
def encodeChunk (chunkIndex : ℕ) (payload : List ℕ) : List ℕ :=
  be32 chunkIndex ++ be32 payload.length ++ payload

/-- A `Uint8Array` view: `new Uint8Array(buffer, byteOffset, length)` keeps a
reference to the whole backing `buffer`; the view's own bytes are
`length` bytes starting at `byteOffset`. -/
structure ByteView where
  buffer : List ℕ
  byteOffset : ℕ
  length : ℕ
  deriving DecidableEq, Repr

/-- The bytes a `Uint8Array` view denotes. -/
def ByteView.toBytes (v : ByteView) : List ℕ :=
  (v.buffer.drop v.byteOffset).take v.length

/-- `decodeChunk(buffer)`: reads the two big-endian u32 fields, verifies
`payloadLength === buffer.byteLength - HEADER_SIZE`, and returns the chunk
index together with the payload view `new Uint8Array(buffer, HEADER_SIZE,
payloadLength)`.  A buffer shorter than 8 bytes makes `getUint32` throw and a
length mismatch makes the function throw; both are modelled as `none`
(every caller wraps `decodeChunk` in try/catch and drops the frame). -/
def decodeChunk (buffer : List ℕ) : Option (ℕ × ByteView) :=
  match buffer with
  | b0 :: b1 :: b2 :: b3 :: b4 :: b5 :: b6 :: b7 :: _ =>
    let chunkIndex := readU32BE b0 b1 b2 b3
    let payloadLength := readU32BE b4 b5 b6 b7
    if payloadLength = buffer.length - HEADER_SIZE then
      some (chunkIndex, ⟨buffer, HEADER_SIZE, payloadLength⟩)
    else
      none
  | _ => none

/-- `calculateTotalChunks(fileSize) = Math.ceil(fileSize / CHUNK_SIZE)`. -/
def calculateTotalChunks (fileSize : ℕ) : ℕ :=
  (fileSize + CHUNK_SIZE - 1) / CHUNK_SIZE

/-! ### Sliding window (`FlowControl.ts`, class `SlidingWindow`)

The `outstandingChunks` map sends chunk indices to `Date.now()` timestamps;
no operation reads the timestamps, so the map is embedded as its key set.
Waiters are promise `resolve` callbacks; they are embedded as identifiers:
`waitQueue` is the FIFO of suspended waiters and the ghost field
`resolvedWaiters` records every waiter whose `resolve` has been invoked
(a waiter not in `resolvedWaiters` is a promise that never settles). -/

structure SlidingWindow where
  maxOutstandingBytes : ℕ
  chunkSize : ℕ
  outstandingChunks : Finset ℕ
  waitQueue : List ℕ
  paused : Bool
  resolvedWaiters : List ℕ
  deriving DecidableEq

/-- `maxChunksInFlight = Math.floor(maxOutstandingBytes / chunkSize)`,
computed in the constructor (natural division is the floor). -/
def SlidingWindow.maxChunksInFlight (w : SlidingWindow) : ℕ :=
  w.maxOutstandingBytes / w.chunkSize

/-- Constructor state: empty map, empty wait queue, `paused = false`. -/
def initWindow (maxOutstandingBytes chunkSize : ℕ) : SlidingWindow :=
  { maxOutstandingBytes := maxOutstandingBytes
    chunkSize := chunkSize
    outstandingChunks := ∅
    waitQueue := []
    paused := false
    resolvedWaiters := [] }

/-- `get outstandingBytes() { return this.outstandingChunks.size * this.config.chunkSize }`. -/
def SlidingWindow.outstandingBytes (w : SlidingWindow) : ℕ :=
  w.outstandingChunks.card * w.chunkSize

/-- `canSend() { return !this.paused && this.outstandingChunks.size < this.maxChunksInFlight }`. -/
def SlidingWindow.canSend (w : SlidingWindow) : Bool :=
  !w.paused && decide (w.outstandingChunks.card < w.maxChunksInFlight)

/-- `markSent(chunkIndex)`: inserts `(chunkIndex, Date.now())` into the map
(it throws when `size ≥ maxChunksInFlight`; callers invoke it only after
`canSend()`, which is the hypothesis carried by `WindowStep.markSent`). -/
def SlidingWindow.markSent (w : SlidingWindow) (chunkIndex : ℕ) : SlidingWindow :=
  { w with outstandingChunks := insert chunkIndex w.outstandingChunks }

/-- `notifyWaiters()`: `while (waitQueue.length > 0 && canSend()) shift-and-resolve`.
Invoking a waiter's `resolve` mutates no field of the window (the awakened
continuation runs in a later microtask), so `canSend()` is invariant across the
loop body: the loop resolves every queued waiter in FIFO order when
`canSend()` holds and none otherwise. -/
def SlidingWindow.notifyWaiters (w : SlidingWindow) : SlidingWindow :=
  if w.canSend then
    { w with waitQueue := [], resolvedWaiters := w.resolvedWaiters ++ w.waitQueue }
  else
    w

/-- `onAck(chunkIndex)`: delete from the map, then `notifyWaiters()`. -/
def SlidingWindow.onAck (w : SlidingWindow) (chunkIndex : ℕ) : SlidingWindow :=
  SlidingWindow.notifyWaiters
    { w with outstandingChunks := w.outstandingChunks.erase chunkIndex }

/-- `onAckBatch(chunkIndices)`: delete each index, then `notifyWaiters()`. -/
def SlidingWindow.onAckBatch (w : SlidingWindow) (chunkIndices : List ℕ) : SlidingWindow :=
  SlidingWindow.notifyWaiters
    { w with
      outstandingChunks :=
        chunkIndices.foldl (fun s idx => s.erase idx) w.outstandingChunks }

/-- `getChunksForRetransmit(missingChunks)`: only indices currently in flight. -/
def SlidingWindow.getChunksForRetransmit (w : SlidingWindow) (missingChunks : List ℕ) :
    List ℕ :=
  missingChunks.filter (fun idx => idx ∈ w.outstandingChunks)

/-- `pause()`. -/
def SlidingWindow.pause (w : SlidingWindow) : SlidingWindow :=
  { w with paused := true }

/-- `resume()`: clear the flag, then `notifyWaiters()`. -/
def SlidingWindow.resume (w : SlidingWindow) : SlidingWindow :=
  SlidingWindow.notifyWaiters { w with paused := false }

/-- `waitForSpace()`: if `canSend()` the promise completes at once (the waiter
is immediately resolved); otherwise its `resolve` is pushed onto `waitQueue`. -/
def SlidingWindow.waitForSpace (w : SlidingWindow) (waiter : ℕ) : SlidingWindow :=
  if w.canSend then
    { w with resolvedWaiters := w.resolvedWaiters ++ [waiter] }
  else
    { w with waitQueue := w.waitQueue ++ [waiter] }

/-- `clear()`: empties the map, resets `paused`, and replaces `waitQueue` with
`[]`.  The `forEach` over the old queue has an empty body — no waiter's
`resolve` is invoked — so `resolvedWaiters` is unchanged. -/
def SlidingWindow.clear (w : SlidingWindow) : SlidingWindow :=
  { w with outstandingChunks := ∅, paused := false, waitQueue := [] }

/-- One client-visible operation on the window.  `markSent` carries the
hypothesis that it is performed only when `canSend()` is true, as the sender
does (`sendLoop` awaits `waitForSpace()` first) and as claim C2 states. -/
inductive WindowStep : SlidingWindow → SlidingWindow → Prop
  | markSent (w : SlidingWindow) (i : ℕ) (h : w.canSend = true) :
      WindowStep w (w.markSent i)
  | onAck (w : SlidingWindow) (i : ℕ) : WindowStep w (w.onAck i)
  | onAckBatch (w : SlidingWindow) (l : List ℕ) : WindowStep w (w.onAckBatch l)
  | pause (w : SlidingWindow) : WindowStep w w.pause
  | resume (w : SlidingWindow) : WindowStep w w.resume
  | waitForSpace (w : SlidingWindow) (waiter : ℕ) :
      WindowStep w (w.waitForSpace waiter)
  | clear (w : SlidingWindow) : WindowStep w w.clear

/-- States reachable from a freshly constructed window by any sequence of
operations. -/
def WindowReachable (maxOutstandingBytes chunkSize : ℕ) (w : SlidingWindow) : Prop :=
  Relation.ReflTransGen WindowStep (initWindow maxOutstandingBytes chunkSize) w

/-! ### Received-ranges tracker (`FlowControl.ts`, class `ReceivedRanges`)

A JavaScript `Set` iterates in insertion order and never holds duplicates;
`receivedSet` is embedded as the insertion-ordered duplicate-free list. -/

/-- Insertion into an ascending list, for the numeric ascending
`Array.from(set).sort((a, b) => a - b)` of `updateRanges`. -/
def insertAsc (x : ℕ) : List ℕ → List ℕ
  | [] => [x]
  | y :: ys => if x ≤ y then x :: y :: ys else y :: insertAsc x ys

/-- Ascending numeric sort. -/
def sortAsc (l : List ℕ) : List ℕ :=
  l.foldr insertAsc []

/-- The compression loop of `updateRanges`: starting from the open range
`[rangeStart, rangeEnd]`, each successor extends it and any other value closes
it and opens a new one. -/
def coalesceFrom (rangeStart rangeEnd : ℕ) : List ℕ → List (ℕ × ℕ)
  | [] => [(rangeStart, rangeEnd)]
  | x :: xs =>
    if x = rangeEnd + 1 then coalesceFrom rangeStart x xs
    else (rangeStart, rangeEnd) :: coalesceFrom x x xs

/-- `updateRanges()`: sort the set and coalesce into maximal inclusive ranges. -/
def updateRanges (receivedSet : List ℕ) : List (ℕ × ℕ) :=
  match sortAsc receivedSet with
  | [] => []
  | x :: xs => coalesceFrom x x xs

structure ReceivedRanges where
  totalChunks : ℕ
  receivedSet : List ℕ
  ranges : List (ℕ × ℕ)
  deriving DecidableEq

/-- `new ReceivedRanges(totalChunks)`. -/
def mkReceivedRanges (totalChunks : ℕ) : ReceivedRanges :=
  { totalChunks := totalChunks, receivedSet := [], ranges := [] }

/-- `hasChunk(chunkIndex)`. -/
def ReceivedRanges.hasChunk (r : ReceivedRanges) (chunkIndex : ℕ) : Bool :=
  chunkIndex ∈ r.receivedSet

/-- `markReceived(chunkIndex)`: duplicates return unchanged, otherwise the
index joins the set and the range list is rebuilt. -/
def ReceivedRanges.markReceived (r : ReceivedRanges) (chunkIndex : ℕ) : ReceivedRanges :=
  if chunkIndex ∈ r.receivedSet then r
  else
    { r with
      receivedSet := r.receivedSet ++ [chunkIndex]
      ranges := updateRanges (r.receivedSet ++ [chunkIndex]) }

/-- `isComplete() { return this.receivedSet.size >= this.totalChunks }`
(the set is duplicate-free, so list length is `Set.size`). -/
def ReceivedRanges.isComplete (r : ReceivedRanges) : Bool :=
  r.totalChunks ≤ r.receivedSet.length

/-- `getMissingChunks()`: indices in `[0, totalChunks)` not in the set. -/
def ReceivedRanges.getMissingChunks (r : ReceivedRanges) : List ℕ :=
  (List.range r.totalChunks).filter (fun i => i ∉ r.receivedSet)

/-! ### Receiver engine (`Receiver.ts`, class `Receiver`)

Fields of the class that the claims touch are embedded directly; effects on
the transport and on the disk are recorded in ghost logs (`acksSent`,
`diskWrites`, `readySent`, `completeSent`).  `name`, `mimeType` and
`checksum` of the file metadata are carried nowhere into the logic of the
claims and are omitted from `FileMeta`. -/

structure FileMeta where
  size : ℕ
  totalChunks : ℕ
  deriving DecidableEq

/-- One write performed on the seekable sink: `seek(position)` followed by
`write(bytes)`. -/
structure DiskWrite where
  position : ℕ
  bytes : List ℕ
  deriving DecidableEq

/-- `writeChunkToDisk(chunkIndex, payload)`: seeks to
`chunkIndex * CHUNK_SIZE` and writes `new Uint8Array(payload.buffer)` — the
`Uint8Array(ArrayBuffer)` constructor views the ENTIRE backing buffer, not the
`payload` view's `[byteOffset, byteOffset + length)` slice. -/
def writeChunkToDisk (chunkIndex : ℕ) (payload : ByteView) : DiskWrite :=
  { position := chunkIndex * CHUNK_SIZE, bytes := payload.buffer }

/-- `Map.set` of a JavaScript `Map`: replace in place or append. -/
def mapSet {α : Type} : List (ℕ × α) → ℕ → α → List (ℕ × α)
  | [], k, v => [(k, v)]
  | (k', v') :: rest, k, v =>
    if k' = k then (k, v) :: rest else (k', v') :: mapSet rest k v

structure ReceiverState where
  ackBatchSize : ℕ
  fileMeta : Option FileMeta
  receivedRanges : Option ReceivedRanges
  chunks : List (ℕ × List ℕ)
  receivedBytes : ℕ
  writableStream : Bool
  diskWrites : List DiskWrite
  pendingAcks : List ℕ
  acksSent : List ℕ
  readySent : Bool
  completeSent : Bool
  deriving DecidableEq

/-- A freshly constructed `Receiver` (the `writableStream` flag says whether
`tryGetFileHandle` will succeed when metadata arrives; the user's answer to
the save-file picker is an environment input). -/
def initReceiver (ackBatchSize : ℕ) (writableStream : Bool) : ReceiverState :=
  { ackBatchSize := ackBatchSize
    fileMeta := none
    receivedRanges := none
    chunks := []
    receivedBytes := 0
    writableStream := writableStream
    diskWrites := []
    pendingAcks := []
    acksSent := []
    readySent := false
    completeSent := false }

/-- `sendAcks()`: one `ack` message per pending index, then the buffer clears. -/
def sendAcks (s : ReceiverState) : ReceiverState :=
  { s with acksSent := s.acksSent ++ s.pendingAcks, pendingAcks := [] }

/-- `completeTransfer()`: flush remaining ACKs, cancel the NACK timer, close
the sink (or assemble the in-memory chunks), send `transfer-complete`. -/
def completeTransfer (s : ReceiverState) : ReceiverState :=
  { sendAcks s with completeSent := true }

/-- `handleFileMetadata(meta)`: fresh tracker sized by `meta.totalChunks`,
cleared chunk storage and byte counter, NACK timer started, `ready` sent.
Note that no completion check happens here. -/
def handleFileMetadata (s : ReceiverState) (meta : FileMeta) : ReceiverState :=
  { s with
    fileMeta := some meta
    receivedRanges := some (mkReceivedRanges meta.totalChunks)
    chunks := []
    receivedBytes := 0
    readySent := true }

/-- `handleBinaryChunk(buffer)`: drop before metadata; decode (failures are
caught and dropped); drop duplicates; persist to the sink or the chunk map;
mark received; count bytes; queue the ACK and flush a full batch; finish when
the tracker is complete. -/
def handleBinaryChunk (s : ReceiverState) (buffer : List ℕ) : ReceiverState :=
  match s.fileMeta, s.receivedRanges with
  | some _, some ranges =>
    match decodeChunk buffer with
    | none => s
    | some (chunkIndex, payload) =>
      if ranges.hasChunk chunkIndex then s
      else
        let stored :=
          if s.writableStream then
            { s with diskWrites := s.diskWrites ++ [writeChunkToDisk chunkIndex payload] }
          else
            { s with chunks := mapSet s.chunks chunkIndex payload.toBytes }
        let tracked :=
          { stored with
            receivedRanges := some (ranges.markReceived chunkIndex)
            receivedBytes := stored.receivedBytes + payload.length
            pendingAcks := stored.pendingAcks ++ [chunkIndex] }
        let flushed :=
          if s.ackBatchSize ≤ tracked.pendingAcks.length then sendAcks tracked
          else tracked
        if (ranges.markReceived chunkIndex).isComplete then completeTransfer flushed
        else flushed
  | _, _ => s

/-! ### Sender engine (`Sender.ts`, class `Sender`)

`sentChunks` is the ghost log of binary frames handed to
`dataChannel.send`; `metaSent` records the `file-meta` control send;
`promiseResolved` / `promiseRejected` record the settling of the promise
returned by `sendFile` (the resolver is invoked only inside `handleAck`, the
rejecter only inside `cancel`). -/

structure SenderState where
  totalChunks : ℕ
  currentChunkIndex : ℕ
  window : SlidingWindow
  sending : Bool
  cancelled : Bool
  metaSent : Bool
  sentChunks : List ℕ
  promiseResolved : Bool
  promiseRejected : Bool
  deriving DecidableEq

/-- A freshly constructed `Sender`: its window is
`new SlidingWindow({maxOutstandingBytes})`, whose `chunkSize` stays the
default `CHUNK_SIZE`. -/
def senderInit (maxOutstandingBytes : ℕ) : SenderState :=
  { totalChunks := 0
    currentChunkIndex := 0
    window := initWindow maxOutstandingBytes CHUNK_SIZE
    sending := false
    cancelled := false
    metaSent := false
    sentChunks := []
    promiseResolved := false
    promiseRejected := false }

/-- `sendFile(file)` up to the start of the send loop: compute
`totalChunks = Math.ceil(file.size / CHUNK_SIZE)`, reset the cursor and flags,
send the `file-meta` control message. -/
def Sender.sendFile (s : SenderState) (fileSize : ℕ) : SenderState :=
  { s with
    totalChunks := calculateTotalChunks fileSize
    currentChunkIndex := 0
    sending := true
    cancelled := false
    metaSent := true }

/-- `sendChunk(chunkIndex)`: slice the file, encode, `dataChannel.send`,
`window.markSent`. -/
def Sender.sendChunk (s : SenderState) (chunkIndex : ℕ) : SenderState :=
  { s with
    sentChunks := s.sentChunks ++ [chunkIndex]
    window := s.window.markSent chunkIndex }

/-- `sendLoop()`: while `currentChunkIndex < totalChunks && sending &&
!cancelled`, await window space then send the next chunk.  When `canSend()`
is false the loop suspends inside `waitForSpace()`; in this sequential model
(no interleaved ACK arrivals) the suspended loop performs nothing further.
The fuel bounds the iterations; `totalChunks` fuel always suffices. -/
def Sender.sendLoop : ℕ → SenderState → SenderState
  | 0, s => s
  | fuel + 1, s =>
    if s.currentChunkIndex < s.totalChunks ∧ s.sending = true ∧ s.cancelled = false then
      if s.window.canSend then
        Sender.sendLoop fuel
          { Sender.sendChunk s s.currentChunkIndex with
            currentChunkIndex := s.currentChunkIndex + 1 }
      else s
    else s

/-- `handleAck(ack)`: advance the window; when the cursor has passed the last
chunk and nothing is outstanding, mark completed and resolve the `sendFile`
promise.  This is the only place the resolver is invoked. -/
def Sender.handleAck (s : SenderState) (chunkIndex : ℕ) : SenderState :=
  let acked := { s with window := s.window.onAck chunkIndex }
  if acked.totalChunks ≤ acked.currentChunkIndex
      ∧ acked.window.outstandingChunks.card = 0 then
    { acked with sending := false, promiseResolved := true }
  else
    acked

inductive ControlAction where
  | ready
  | pause
  | resume
  deriving DecidableEq

/-- `handleControl(control)`. -/
def Sender.handleControl (s : SenderState) : ControlAction → SenderState
  | ControlAction.ready => { s with window := s.window.resume }
  | ControlAction.pause => { s with window := s.window.pause }
  | ControlAction.resume => { s with window := s.window.resume }

/-- `cancel()`: set the flags, clear the window, reject the promise. -/
def Sender.cancel (s : SenderState) : SenderState :=
  { s with
    cancelled := true
    sending := false
    window := s.window.clear
    promiseRejected := true }

/-! ### Session registry (`RedisSessionRepository.java`)

The Redis keys `pin:{PIN}` (hash `senderConnId`, `receiverConnId`) and
`connection:{connId}` (string PIN) are embedded as association lists; PINs and
connection ids are opaque string tokens, embedded as naturals.  TTLs are not
modelled (no claim is about expiry). -/

/-- Redis key lookup on an association list. -/
def assocLookup {α : Type} : List (ℕ × α) → ℕ → Option α
  | [], _ => none
  | (k, v) :: rest, key => if k = key then some v else assocLookup rest key

structure SessionStore where
  sessions : List (ℕ × (ℕ × Option ℕ))
  connections : List (ℕ × ℕ)
  deriving DecidableEq

/-- `createSession(senderConnectionId)`: `do { pin = generate() } while
(EXISTS pin:{pin})`, then write the hash and the reverse mapping.  The
candidate stream stands for the successive outputs of
`pinGenerator.generate()`; the loop consumes candidates until one does not
collide — there is no retry budget and no failure branch in the code, so the
only way to stop without a PIN is to exhaust the (arbitrarily long) stream. -/
def createSession (senderConnectionId : ℕ) (st : SessionStore) :
    List ℕ → Option (ℕ × SessionStore)
  | [] => none
  | pin :: rest =>
    if (assocLookup st.sessions pin).isSome then
      createSession senderConnectionId st rest
    else
      some (pin,
        { sessions := mapSet st.sessions pin (senderConnectionId, none)
          connections := mapSet st.connections senderConnectionId pin })

/-- `joinSession(pin, receiverConnectionId)`: `false` when `pin:{pin}` is
absent; otherwise `HSET pin:{pin} receiverConnId <id>` (the field is written
unconditionally — nothing checks whether a receiver is already present),
refresh TTLs, write the reverse mapping, return `true`. -/
def joinSession (st : SessionStore) (pin receiverConnectionId : ℕ) :
    Bool × SessionStore :=
  match assocLookup st.sessions pin with
  | none => (false, st)
  | some (sender, _) =>
    (true,
      { sessions := mapSet st.sessions pin (sender, some receiverConnectionId)
        connections := mapSet st.connections receiverConnectionId pin })

/-! ### PIN validation (`ValidatePin.ts` and `PinValidator.java`)

Strings are lists of Unicode code points.  Every code point the claims
quantify over is ASCII; NFKC normalisation fixes every ASCII code point, so on
the modelled domain it is the identity. -/

def PIN_LENGTH : ℕ := 6

/-- Code points of the alphabet `ABCDEFGHJKLMNPQRSTUVWXYZ23456789`. -/
def DEFAULT_PIN_CHARS : List ℕ :=
  [65, 66, 67, 68, 69, 70, 71, 72, 74, 75, 76, 77, 78, 80, 81, 82, 83, 84,
   85, 86, 87, 88, 89, 90, 50, 51, 52, 53, 54, 55, 56, 57]

/-- ASCII-range `String.prototype.toUpperCase` / `Character.toUpperCase`. -/
def toUpperAscii (s : List ℕ) : List ℕ :=
  s.map fun c => if 97 ≤ c ∧ c ≤ 122 then c - 32 else c

/-- ASCII-range lower-casing, used to build the lower-case rendition of a
PIN. -/
def toLowerAscii (s : List ℕ) : List ℕ :=
  s.map fun c => if 65 ≤ c ∧ c ≤ 90 then c + 32 else c

/-- NFKC normalisation, restricted to the modelled (ASCII) domain where it is
the identity on every code point. -/
def normalizeNFKC (s : List ℕ) : List ℕ := s

/-- Strip a predicate from both ends of a string. -/
def trimEnds (p : ℕ → Bool) (s : List ℕ) : List ℕ :=
  ((s.dropWhile p).reverse.dropWhile p).reverse

/-- `String.prototype.trim` (JavaScript): strips WhiteSpace and
LineTerminator code points from both ends; the ASCII-range members are
TAB..CR and space (NBSP and BOM included for the Latin-1 range). -/
def isJsTrimmable (c : ℕ) : Bool :=
  (9 ≤ c && c ≤ 13) || c = 32 || c = 160 || c = 65279

def trimJs (s : List ℕ) : List ℕ := trimEnds isJsTrimmable s

/-- `String.trim` (Java): strips every code unit `≤ U+0020` from both ends. -/
def trimJava (s : List ℕ) : List ℕ := trimEnds (fun c => c ≤ 32) s

/-- `validatePin` (`ValidatePin.ts`): `pin.trim().toUpperCase()
.normalize('NFKC')`, then length and alphabet membership — note the
`toUpperCase()` before the checks. -/
def validatePin (pin : List ℕ) : Bool :=
  let candidate := normalizeNFKC (toUpperAscii (trimJs pin))
  decide (candidate.length = PIN_LENGTH)
    && candidate.all fun c => decide (c ∈ DEFAULT_PIN_CHARS)

/-- `Character.isWhitespace`, ASCII range: TAB..CR, FS..US, space. -/
def isJavaWhitespaceAscii (c : ℕ) : Bool :=
  (9 ≤ c && c ≤ 13) || (28 ≤ c && c ≤ 32)

/-- `Character.isISOControl`. -/
def isIsoControl (c : ℕ) : Bool :=
  c ≤ 31 || (127 ≤ c && c ≤ 159)

/-- `Character.isSurrogate`. -/
def isSurrogate (c : ℕ) : Bool :=
  55296 ≤ c && c ≤ 57343

/-- `Character.isLetter`, ASCII range. -/
def isJavaLetterAscii (c : ℕ) : Bool :=
  (65 ≤ c && c ≤ 90) || (97 ≤ c && c ≤ 122)

/-- `Character.isLowerCase`, ASCII range. -/
def isLowerCaseAscii (c : ℕ) : Bool :=
  97 ≤ c && c ≤ 122

/-- `PinValidator.isValid` (Java): reject null/blank, normalise with NFKC and
`trim()` only (no case mutation), then demand exactly `PIN_LENGTH` characters,
none whitespace / control / surrogate, no lower-case letter, all in the
alphabet. -/
def PinValidator.isValid (pin : List ℕ) : Bool :=
  if pin.isEmpty || pin.all isJavaWhitespaceAscii then false
  else
    let normalized := trimJava (normalizeNFKC pin)
    if normalized.length ≠ PIN_LENGTH then false
    else
      normalized.all fun c =>
        !isJavaWhitespaceAscii c
          && !(isIsoControl c || isSurrogate c)
          && !(isJavaLetterAscii c && isLowerCaseAscii c)
          && decide (c ∈ DEFAULT_PIN_CHARS)

/-- `PinValidator.canonicalize` (Java): NFKC, `trim()`, then
`toUpperCase(Locale.ROOT)` — the only case-folding in the validator class,
used for display/comparison, not by `isValid`. -/
def PinValidator.canonicalize (pin : List ℕ) : List ℕ :=
  toUpperAscii (trimJava (normalizeNFKC pin))

/-! ### Helper lemmas for the codec -/

/-- Reading back the four big-endian bytes of `n` recovers `n mod 2^32`. -/
theorem readU32BE_be32 (n : ℕ) :
    readU32BE (n / 16777216 % 256) (n / 65536 % 256) (n / 256 % 256) (n % 256)
      = n % 4294967296 := by
  unfold readU32BE
  omega

/-- Claim C3: for every chunk index `i ≤ 2^32 − 1` and every byte string `p`
with `|p| ≤ CHUNK_SIZE`, `decodeChunk (encodeChunk i p)` succeeds and returns
exactly the pair `(i, p)` (the payload view denotes exactly the bytes `p`). -/
theorem decodeChunk_encodeChunk (i : ℕ) (p : List ℕ)
    (hi : i ≤ 2 ^ 32 - 1) (hp : p.length ≤ CHUNK_SIZE) :
    (decodeChunk (encodeChunk i p)).map (fun r => (r.1, r.2.toBytes))
      = some (i, p) := by
  have hi' : i % 4294967296 = i := Nat.mod_eq_of_lt (by omega)
  have hp' : p.length % 4294967296 = p.length := by
    have : p.length ≤ 65536 := by simpa [CHUNK_SIZE] using hp
    exact Nat.mod_eq_of_lt (by omega)
  have hdrop : ∀ (a b c d e f g h : ℕ) (l : List ℕ),
      List.drop 8 (a :: b :: c :: d :: e :: f :: g :: h :: l) = l := by
    intro a b c d e f g h l
    rfl
  simp only [encodeChunk, be32, List.cons_append, List.nil_append]
  simp only [decodeChunk, readU32BE_be32, hi', hp', List.length_cons, HEADER_SIZE]
  rw [if_pos (by omega)]
  simp [ByteView.toBytes, hdrop, List.take_length]

/-! ### Sliding-window invariant (claim C2) -/

/-- `notifyWaiters` touches only `waitQueue`/`resolvedWaiters`. -/
theorem notifyWaiters_preserves (w : SlidingWindow) :
    w.notifyWaiters.outstandingChunks = w.outstandingChunks
    ∧ w.notifyWaiters.maxOutstandingBytes = w.maxOutstandingBytes
    ∧ w.notifyWaiters.chunkSize = w.chunkSize
    ∧ w.notifyWaiters.paused = w.paused := by
  unfold SlidingWindow.notifyWaiters
  split <;> simp

/-- Erasing a batch of indices cannot grow the outstanding set. -/
theorem foldl_erase_card_le (l : List ℕ) (s : Finset ℕ) :
    (l.foldl (fun t idx => t.erase idx) s).card ≤ s.card := by
  induction l generalizing s with
  | nil => simp
  | cons x xs ih =>
    calc (List.foldl (fun t idx => t.erase idx) (s.erase x) xs).card
        ≤ (s.erase x).card := ih (s.erase x)
      _ ≤ s.card := Finset.card_erase_le

/-- One operation preserves the configuration and the outstanding-chunk bound. -/
theorem windowStep_invariant (m c : ℕ) {v w : SlidingWindow} (hs : WindowStep v w)
    (ihm : v.maxOutstandingBytes = m) (ihc : v.chunkSize = c)
    (ihcard : v.outstandingChunks.card ≤ m / c) :
    w.maxOutstandingBytes = m ∧ w.chunkSize = c
      ∧ w.outstandingChunks.card ≤ m / c := by
  cases hs with
  | markSent i hcs =>
    refine ⟨ihm, ihc, ?_⟩
    have hlt : v.outstandingChunks.card < v.maxChunksInFlight := by
      have h := hcs
      simp only [SlidingWindow.canSend, Bool.and_eq_true, decide_eq_true_eq] at h
      exact h.2
    have hlt' : v.outstandingChunks.card < m / c := by
      simpa [SlidingWindow.maxChunksInFlight, ihm, ihc] using hlt
    calc (v.markSent i).outstandingChunks.card
        ≤ v.outstandingChunks.card + 1 := by
          simpa [SlidingWindow.markSent] using
            Finset.card_insert_le i v.outstandingChunks
      _ ≤ m / c := hlt'
  | onAck i =>
    refine ⟨?_, ?_, ?_⟩
    · rw [SlidingWindow.onAck, (notifyWaiters_preserves _).2.1]; exact ihm
    · rw [SlidingWindow.onAck, (notifyWaiters_preserves _).2.2.1]; exact ihc
    · calc (v.onAck i).outstandingChunks.card
          = (v.outstandingChunks.erase i).card := by
            rw [SlidingWindow.onAck, (notifyWaiters_preserves _).1]
        _ ≤ v.outstandingChunks.card := Finset.card_erase_le
        _ ≤ m / c := ihcard
  | onAckBatch l =>
    refine ⟨?_, ?_, ?_⟩
    · rw [SlidingWindow.onAckBatch, (notifyWaiters_preserves _).2.1]; exact ihm
    · rw [SlidingWindow.onAckBatch, (notifyWaiters_preserves _).2.2.1]; exact ihc
    · calc (v.onAckBatch l).outstandingChunks.card
          = (l.foldl (fun t idx => t.erase idx) v.outstandingChunks).card := by
            rw [SlidingWindow.onAckBatch, (notifyWaiters_preserves _).1]
        _ ≤ v.outstandingChunks.card := foldl_erase_card_le l _
        _ ≤ m / c := ihcard
  | pause => exact ⟨ihm, ihc, by simpa [SlidingWindow.pause] using ihcard⟩
  | resume =>
    refine ⟨?_, ?_, ?_⟩
    · rw [SlidingWindow.resume, (notifyWaiters_preserves _).2.1]; exact ihm
    · rw [SlidingWindow.resume, (notifyWaiters_preserves _).2.2.1]; exact ihc
    · rw [SlidingWindow.resume, (notifyWaiters_preserves _).1]; exact ihcard
  | waitForSpace waiter =>
    refine ⟨?_, ?_, ?_⟩ <;>
      · unfold SlidingWindow.waitForSpace
        split <;> simp [ihm, ihc, ihcard]
  | clear => exact ⟨ihm, ihc, by simp [SlidingWindow.clear]⟩

/-- Every reachable window state keeps its configuration and at most
`maxOutstandingBytes / chunkSize` outstanding chunks. -/
theorem windowReachable_invariant (m c : ℕ) (w : SlidingWindow)
    (h : WindowReachable m c w) :
    w.maxOutstandingBytes = m ∧ w.chunkSize = c
      ∧ w.outstandingChunks.card ≤ m / c := by
  induction h with
  | refl => simp [initWindow]
  | tail hsteps step ih =>
    exact windowStep_invariant m c step ih.1 ih.2.1 ih.2.2

/-- Claim C2: at every reachable state of the sender's sliding window — after
any sequence of `markSent` (each performed only when `canSend()` is true),
`onAck`, `onAckBatch`, `pause`, `resume`, `waitForSpace` and `clear`
operations — the outstanding bytes (sent-but-unacknowledged chunks times
`chunkSize`) are at most `maxOutstandingBytes`. -/
theorem outstandingBytes_le_max (m c : ℕ) (w : SlidingWindow)
    (h : WindowReachable m c w) : w.outstandingBytes ≤ m := by
  obtain ⟨hm, hc, hcard⟩ := windowReachable_invariant m c w h
  calc w.outstandingBytes = w.outstandingChunks.card * c := by
        rw [SlidingWindow.outstandingBytes, hc]
    _ ≤ m / c * c := Nat.mul_le_mul_right c hcard
    _ ≤ m := Nat.div_mul_le_self m c

theorem outstandingBytes_le_max_witness :
    ((initWindow 8388608 65536).markSent 0).outstandingBytes ≤ 8388608 :=
  outstandingBytes_le_max 8388608 65536 _
    (Relation.ReflTransGen.single (WindowStep.markSent _ 0 (by decide)))

/-- Claim C6 (refuted by the code): after `clear()` the outstanding map is
empty, `paused` is false and the wait queue is emptied — but the waiter that
`waitForSpace` had suspended (id 7, visibly queued before the `clear`) is
dropped without its `resolve` ever being invoked (`resolvedWaiters` stays
empty): the `forEach` in `clear()` has an empty body, so pending completions
are never settled, contradicting both the claim and the code's own
`Reject all waiters` comment. -/
theorem clear_drops_waiters :
    (((initWindow 65536 65536).markSent 0).waitForSpace 7).waitQueue = [7]
    ∧ (((initWindow 65536 65536).markSent 0).waitForSpace 7).clear.outstandingChunks = ∅
    ∧ (((initWindow 65536 65536).markSent 0).waitForSpace 7).clear.paused = false
    ∧ (((initWindow 65536 65536).markSent 0).waitForSpace 7).clear.waitQueue = []
    ∧ (((initWindow 65536 65536).markSent 0).waitForSpace 7).clear.resolvedWaiters = [] := by
  decide

/-! ### Receiver persistence and duplicate handling (claims C1, C5, C10) -/

/-- Claim C1 (refuted by the code): on the seekable-sink path the receiver
seeks to `chunkIndex * CHUNK_SIZE`, but the bytes it writes there are NOT the
decoded payload of the chunk: `writeChunkToDisk` writes
`new Uint8Array(payload.buffer)`, a view of the ENTIRE frame buffer, so the
8-byte header precedes the payload in the persisted bytes.  For the frame of
chunk 0 with payload `[42]`, the sink receives the 9 frame bytes
`[0,0,0,0,0,0,0,1,42]` at offset 0 instead of the single decoded payload byte
`[42]`. -/
theorem writeChunkToDisk_writes_header :
    (handleBinaryChunk (handleFileMetadata (initReceiver 4 true) ⟨1, 1⟩)
        (encodeChunk 0 [42])).diskWrites
      = [{ position := 0, bytes := [0, 0, 0, 0, 0, 0, 0, 1, 42] }]
    ∧ (decodeChunk (encodeChunk 0 [42])).map (fun r => r.2.toBytes) = some [42]
    ∧ ([0, 0, 0, 0, 0, 0, 0, 1, 42] : List ℕ) ≠ [42] := by
  decide

/-- Claim C5 counterexample: with `ackBatchSize = 1` (every accepted chunk is
ACKed at once) and a 2-chunk transfer, delivering the frame of chunk 0 twice
sends exactly ONE ack for index 0 — the ack log after the duplicate delivery
equals the log before it, so no second ACK is sent, refuting the claim. -/
theorem duplicate_chunk_no_second_ack :
    (handleBinaryChunk (handleBinaryChunk
        (handleFileMetadata (initReceiver 1 false) ⟨2, 2⟩)
        (encodeChunk 0 [42])) (encodeChunk 0 [42])).acksSent = [0]
    ∧ (handleBinaryChunk (handleFileMetadata (initReceiver 1 false) ⟨2, 2⟩)
        (encodeChunk 0 [42])).acksSent = [0] := by
  decide

/-- Claim C5 as amended: a binary chunk whose index the receiver has already
accepted is dropped silently — the receiver state is completely unchanged
(the chunk is kept exactly once, `receivedBytes` is unchanged, and no second
ACK is queued or sent; the duplicate test returns before the ACK queueing
step). -/
theorem handleBinaryChunk_duplicate (s : ReceiverState) (buffer : List ℕ)
    (meta : FileMeta) (r : ReceivedRanges) (idx : ℕ) (payload : ByteView)
    (hm : s.fileMeta = some meta) (hr : s.receivedRanges = some r)
    (hd : decodeChunk buffer = some (idx, payload))
    (hdup : r.hasChunk idx = true) :
    handleBinaryChunk s buffer = s := by
  simp [handleBinaryChunk, hm, hr, hd, hdup]

theorem handleBinaryChunk_duplicate_witness :
    (handleBinaryChunk (handleBinaryChunk
        (handleFileMetadata (initReceiver 1 false) ⟨2, 2⟩)
        (encodeChunk 0 [42])) (encodeChunk 0 [42]))
      = handleBinaryChunk (handleFileMetadata (initReceiver 1 false) ⟨2, 2⟩)
          (encodeChunk 0 [42]) :=
  handleBinaryChunk_duplicate _ _ ⟨2, 2⟩
    ((mkReceivedRanges 2).markReceived 0) 0 ⟨encodeChunk 0 [42], 8, 1⟩
    (by decide) (by decide) (by decide) (by decide)

/-- Claim C10: a binary chunk frame delivered before any `file-meta` message
is dropped with the receiver's state (chunk storage, ranges tracker,
`receivedBytes`, pending ACKs, logs) completely unchanged; the handler is a
total function, so no exception escapes. -/
theorem handleBinaryChunk_before_meta (s : ReceiverState) (buffer : List ℕ)
    (h : s.fileMeta = none) : handleBinaryChunk s buffer = s := by
  cases hr : s.receivedRanges <;> simp [handleBinaryChunk, h, hr]

theorem handleBinaryChunk_before_meta_witness :
    handleBinaryChunk (initReceiver 4 false) [1, 2, 3] = initReceiver 4 false :=
  handleBinaryChunk_before_meta (initReceiver 4 false) [1, 2, 3] rfl

theorem decodeChunk_encodeChunk_witness :
    (3 : ℕ) ≤ 2 ^ 32 - 1 ∧ ([10, 20, 30] : List ℕ).length ≤ CHUNK_SIZE ∧
      (decodeChunk (encodeChunk 3 [10, 20, 30])).map (fun r => (r.1, r.2.toBytes))
        = some (3, [10, 20, 30]) :=
  ⟨by norm_num, by norm_num [CHUNK_SIZE],
    decodeChunk_encodeChunk 3 [10, 20, 30] (by norm_num) (by norm_num [CHUNK_SIZE])⟩

/-! ### Zero-byte transfer (claim C4) -/

/-- The send loop never settles the `sendFile` promise: only `handleAck`
does. -/
theorem sendLoop_preserves_promise (fuel : ℕ) (s : SenderState) :
    (Sender.sendLoop fuel s).promiseResolved = s.promiseResolved := by
  induction fuel generalizing s with
  | zero => rfl
  | succ n ih =>
    unfold Sender.sendLoop
    split
    · split
      · rw [ih]; simp [Sender.sendChunk]
      · rfl
    · rfl

/-- Claim C4 (refuted by the code): for a zero-byte file `sendFile` does
compute `totalChunks = 0`, sends the `file-meta` message and no binary chunk —
but the promise returned by `sendFile` does NOT resolve: the resolver is
invoked only inside `handleAck`; the loop exits at once without sending, the
receiver queues ACKs only when a binary chunk arrives (after the zero-chunk
`file-meta` its ack queue, ack log and completion flag are all still empty),
and the receiver's `ready` control message does not resolve the promise
either.  The transfer therefore hangs instead of completing. -/
theorem zero_byte_transfer_never_completes :
    (Sender.sendFile (senderInit 8388608) 0).totalChunks = 0
    ∧ (Sender.sendLoop 1 (Sender.sendFile (senderInit 8388608) 0)).sentChunks = []
    ∧ (Sender.sendLoop 1 (Sender.sendFile (senderInit 8388608) 0)).metaSent = true
    ∧ (Sender.sendLoop 1 (Sender.sendFile (senderInit 8388608) 0)).promiseResolved
        = false
    ∧ (Sender.handleControl (Sender.sendLoop 1 (Sender.sendFile (senderInit 8388608) 0))
        ControlAction.ready).promiseResolved = false
    ∧ (handleFileMetadata (initReceiver 4 false) ⟨0, 0⟩).acksSent = []
    ∧ (handleFileMetadata (initReceiver 4 false) ⟨0, 0⟩).pendingAcks = []
    ∧ (handleFileMetadata (initReceiver 4 false) ⟨0, 0⟩).completeSent = false := by
  decide

/-! ### Session pairing (claims C7, C8) -/

/-- Looking up the key just written by `mapSet` yields the written value. -/
theorem assocLookup_mapSet {α : Type} (m : List (ℕ × α)) (k : ℕ) (v : α) :
    assocLookup (mapSet m k v) k = some v := by
  induction m with
  | nil => simp [mapSet, assocLookup]
  | cons kv rest ih =>
    obtain ⟨k', v'⟩ := kv
    by_cases h : k' = k <;> simp [mapSet, assocLookup, h, ih]

/-- Claim C7 counterexample: on a session with PIN 5, sender connection 100
and receiver connection 200 already joined, a second `joinSession` with
connection 300 returns `true` (no SessionFull rejection) and overwrites the
stored `receiverConnId` with 300. -/
theorem second_join_not_rejected :
    (joinSession (joinSession ⟨[(5, (100, none))], [(100, 5)]⟩ 5 200).2 5 300).1
      = true
    ∧ assocLookup
        (joinSession (joinSession ⟨[(5, (100, none))], [(100, 5)]⟩ 5 200).2 5 300).2.sessions
        5
      = some (100, some 300) := by
  decide

/-- Claim C7 as amended: `joinSession` on any stored session — paired or not —
succeeds: it only tests key existence, so it returns `true` and overwrites
`receiverConnId` with the joining connection id; no SessionFull rejection
exists in the repository or in the handler (which replies `joined` /
`peer-joined` on `true` and `Invalid PIN` on `false`). -/
theorem joinSession_overwrites (st : SessionStore) (pin r2 sender : ℕ)
    (r1 : Option ℕ) (h : assocLookup st.sessions pin = some (sender, r1)) :
    (joinSession st pin r2).1 = true
    ∧ assocLookup (joinSession st pin r2).2.sessions pin = some (sender, some r2) := by
  constructor
  · simp [joinSession, h]
  · simp only [joinSession, h]
    exact assocLookup_mapSet st.sessions pin (sender, some r2)

theorem joinSession_overwrites_witness :
    assocLookup (⟨[(5, (100, some 200))], []⟩ : SessionStore).sessions 5
        = some (100, some 200)
    ∧ (joinSession ⟨[(5, (100, some 200))], []⟩ 5 300).1 = true
    ∧ assocLookup (joinSession ⟨[(5, (100, some 200))], []⟩ 5 300).2.sessions 5
        = some (100, some 300) :=
  ⟨by decide,
    (joinSession_overwrites ⟨[(5, (100, some 200))], []⟩ 5 300 100 (some 200)
      (by decide)).1,
    (joinSession_overwrites ⟨[(5, (100, some 200))], []⟩ 5 300 100 (some 200)
      (by decide)).2⟩

/-- Claim C8 counterexample: with nine stored sessions (PINs 1..9) and a
generator that produces the colliding candidates 1..9 before the fresh
candidate 10, `createSession` retries through all nine collisions — past any
budget of eight — and still returns PIN 10 successfully; it never fails with
CapacityExceeded (no such failure exists in the code). -/
theorem createSession_retries_beyond_budget :
    (createSession 77
        ⟨[(1, (0, none)), (2, (0, none)), (3, (0, none)), (4, (0, none)),
          (5, (0, none)), (6, (0, none)), (7, (0, none)), (8, (0, none)),
          (9, (0, none))], []⟩
        [1, 2, 3, 4, 5, 6, 7, 8, 9, 10]).map Prod.fst = some 10 := by
  decide

/-- Claim C8 as amended: `createSession` retries unboundedly — for ANY number
of colliding candidates it keeps generating and returns the first candidate
whose `pin:{PIN}` key does not exist; there is no retry budget and no
CapacityExceeded failure path. -/
theorem createSession_first_free (sender : ℕ) (st : SessionStore)
    (pre : List ℕ) (freePin : ℕ) (rest : List ℕ)
    (hpre : ∀ p ∈ pre, (assocLookup st.sessions p).isSome = true)
    (hfree : assocLookup st.sessions freePin = none) :
    (createSession sender st (pre ++ freePin :: rest)).map Prod.fst
      = some freePin := by
  induction pre with
  | nil => simp [createSession, hfree]
  | cons q qs ih =>
    have hq : (assocLookup st.sessions q).isSome = true :=
      hpre q (List.mem_cons_self q qs)
    simp only [List.cons_append, createSession, hq, if_pos]
    exact ih fun p hp => hpre p (List.mem_cons_of_mem q hp)

theorem createSession_first_free_witness :
    (∀ p ∈ ([1, 2, 3, 4, 5, 6, 7, 8, 9] : List ℕ),
        (assocLookup
          (⟨[(1, (0, none)), (2, (0, none)), (3, (0, none)), (4, (0, none)),
             (5, (0, none)), (6, (0, none)), (7, (0, none)), (8, (0, none)),
             (9, (0, none))], []⟩ : SessionStore).sessions p).isSome = true)
    ∧ (createSession 77
        ⟨[(1, (0, none)), (2, (0, none)), (3, (0, none)), (4, (0, none)),
          (5, (0, none)), (6, (0, none)), (7, (0, none)), (8, (0, none)),
          (9, (0, none))], []⟩
        ([1, 2, 3, 4, 5, 6, 7, 8, 9] ++ 10 :: [])).map Prod.fst = some 10 :=
  ⟨by decide,
    createSession_first_free 77 _ [1, 2, 3, 4, 5, 6, 7, 8, 9] 10 []
      (by decide) (by decide)⟩

/-! ### PIN validation (claim C9) -/

/-- Claim C9 counterexample: `ABCDEF` is a 6-character string over the
alphabet, yet the frontend validator `validatePin` — one of the validators the
claim is about — judges its lower-case rendition `abcdef` VALID, because it
upper-cases the input before checking; validation there does case-fold. -/
theorem validatePin_accepts_lowercase :
    (∀ c ∈ ([65, 66, 67, 68, 69, 70] : List ℕ), c ∈ DEFAULT_PIN_CHARS)
    ∧ toLowerAscii [65, 66, 67, 68, 69, 70] = [97, 98, 99, 100, 101, 102]
    ∧ validatePin [97, 98, 99, 100, 101, 102] = true := by
  decide

/-- Dropping a false-everywhere prefix predicate is the identity. -/
theorem dropWhile_eq_self {p : ℕ → Bool} {l : List ℕ}
    (h : ∀ c ∈ l, p c = false) : l.dropWhile p = l := by
  cases l with
  | nil => rfl
  | cons x xs => simp [List.dropWhile_cons, h x (List.mem_cons_self x xs)]

/-- Trimming is the identity on strings with no trimmable character. -/
theorem trimEnds_eq_self (p : ℕ → Bool) (l : List ℕ)
    (h : ∀ c ∈ l, p c = false) : trimEnds p l = l := by
  unfold trimEnds
  rw [dropWhile_eq_self h,
    dropWhile_eq_self fun c hc => h c (List.mem_reverse.mp hc),
    List.reverse_reverse]

/-- Every alphabet code point lies in `[50, 90]`. -/
theorem pin_chars_bounds : ∀ c ∈ DEFAULT_PIN_CHARS, 50 ≤ c ∧ c ≤ 90 := by
  decide

/-- Claim C9 as amended: the backend validator `PinValidator.isValid` — whose
normalisation is NFKC and `trim()` only, with case-folding confined to
`canonicalize` — rejects the lower-case rendition of every 6-character
alphabet string that contains at least one letter (an all-digit PIN is its own
lower-case rendition and stays valid; the frontend `validatePin` upper-cases
before checking and accepts lower-case input). -/
theorem isValid_rejects_lowercase (s : List ℕ)
    (hs : ∀ c ∈ s, c ∈ DEFAULT_PIN_CHARS) (hlen : s.length = 6)
    (hletter : ∃ c ∈ s, 65 ≤ c ∧ c ≤ 90) :
    PinValidator.isValid (toLowerAscii s) = false := by
  obtain ⟨c, hc, hc65, hc90⟩ := hletter
  have hmem : c + 32 ∈ toLowerAscii s := by
    have hcond : 65 ≤ c ∧ c ≤ 90 := ⟨hc65, hc90⟩
    have hmap : (if 65 ≤ c ∧ c ≤ 90 then c + 32 else c) ∈ toLowerAscii s :=
      List.mem_map_of_mem _ hc
    rwa [if_pos hcond] at hmap
  have hbounds : ∀ d ∈ toLowerAscii s, 50 ≤ d ∧ d ≤ 122 := by
    intro d hd
    obtain ⟨e, he, hde⟩ := List.mem_map.mp hd
    obtain ⟨he50, he90⟩ := pin_chars_bounds e (hs e he)
    by_cases hcase : 65 ≤ e ∧ e ≤ 90 <;> simp [hcase] at hde <;> omega
  have hne : (toLowerAscii s).isEmpty = false := by
    cases hl : toLowerAscii s with
    | nil => rw [hl] at hmem; exact absurd hmem (List.not_mem_nil _)
    | cons x xs => rfl
  have hblank : (toLowerAscii s).all isJavaWhitespaceAscii = false := by
    rcases hall : (toLowerAscii s).all isJavaWhitespaceAscii with _ | _
    · rfl
    · exfalso
      have := (List.all_eq_true.mp hall) _ hmem
      simp [isJavaWhitespaceAscii] at this
      omega
  have htrim : trimJava (normalizeNFKC (toLowerAscii s)) = toLowerAscii s := by
    unfold trimJava normalizeNFKC
    refine trimEnds_eq_self _ _ fun d hd => ?_
    have := (hbounds d hd).1
    simp
    omega
  have hlenlow : (toLowerAscii s).length = 6 := by
    simpa [toLowerAscii] using hlen
  have hfail : (toLowerAscii s).all
      (fun c => !isJavaWhitespaceAscii c
        && !(isIsoControl c || isSurrogate c)
        && !(isJavaLetterAscii c && isLowerCaseAscii c)
        && decide (c ∈ DEFAULT_PIN_CHARS)) = false := by
    rcases hall : (toLowerAscii s).all _ with _ | _
    · rfl
    · exfalso
      have := (List.all_eq_true.mp hall) _ hmem
      simp [isJavaLetterAscii, isLowerCaseAscii] at this
      omega
  unfold PinValidator.isValid
  rw [hne, hblank]
  simp only [Bool.or_self, Bool.false_eq_true, if_false, htrim, hlenlow,
    PIN_LENGTH]
  rw [if_neg (by omega)]
  exact hfail

theorem isValid_rejects_lowercase_witness :
    (∀ c ∈ ([65, 66, 67, 68, 69, 70] : List ℕ), c ∈ DEFAULT_PIN_CHARS)
    ∧ ([65, 66, 67, 68, 69, 70] : List ℕ).length = 6
    ∧ (∃ c ∈ ([65, 66, 67, 68, 69, 70] : List ℕ), 65 ≤ c ∧ c ≤ 90)
    ∧ PinValidator.isValid (toLowerAscii [65, 66, 67, 68, 69, 70]) = false :=
  ⟨by decide, by decide, by decide,
    isValid_rejects_lowercase [65, 66, 67, 68, 69, 70] (by decide) (by decide)
      (by decide)⟩

end FileShare
